import Mathlib

/-!
Verification of the metrics tail handler of `workers-observability-utils`.

The development shallowly embeds the `MetricsTail` class of `src/src/index.ts`:
its ingestion of trace items, the validity filter `isValidMetric`, the
size/time flush scheduler built on the `#flushId` generation counter, and the
sink fanout of `#performFlush`.  JavaScript values reaching the ingestion path
are modelled by the inductive `JsVal` (numbers as rationals; `NaN`/`Infinity`
are out of scope of the claims).  The single-threaded cooperative execution
model of the Workers runtime is modelled by a state-transition system: a call
to `processTraceItems` runs synchronously up to its end (the synchronous
prefix of an immediately triggered `#performFlush` included, since the async
function body runs to its first `await` before control returns), and each
armed timer's continuation is a separate `timerFire` step that may run at any
later point.  The store `MetricsDb`, the `MetricType` enum and
`getEventTrigger` live in repository files that are not part of `src/`; they
are modelled from the spec where noted.
-/

/-- JavaScript runtime values as seen by the ingestion path.  Numbers are
modelled as rationals. -/
inductive JsVal where
  | null
  | undefined
  | bool (b : Bool)
  | num (q : Rat)
  | str (s : String)
  | obj (fields : List (String × JsVal))
  | arr (elems : List JsVal)

/-- JavaScript `typeof`.  Note `typeof null` is `"object"`. -/
def jsTypeof : JsVal → String
  | .null => "object"
  | .undefined => "undefined"
  | .bool _ => "boolean"
  | .num _ => "number"
  | .str _ => "string"
  | .obj _ => "object"
  | .arr _ => "object"

/-- JavaScript strict equality (`===` / SameValueZero as used by
`Array.prototype.includes`) restricted to the cases the source exercises:
primitives compare structurally, objects and arrays compare by reference and
are therefore never equal to a freshly parsed value in this model. -/
def jsStrictEq : JsVal → JsVal → Bool
  | .null, .null => true
  | .undefined, .undefined => true
  | .bool a, .bool b => a == b
  | .num a, .num b => a == b
  | .str a, .str b => a == b
  | _, _ => false

/-- The JavaScript `in` operator for the property names the source queries:
own fields of objects, index properties of arrays. -/
def hasProp : JsVal → String → Bool
  | .obj fs, k => fs.any (fun p => p.1 == k)
  | .arr l, k =>
    match k.toNat? with
    | some n => n < l.length
    | none => false
  | _, _ => false

/-- JavaScript property access; a missing property reads as `undefined`. -/
def getProp : JsVal → String → JsVal
  | .obj fs, k =>
    match fs.find? (fun p => p.1 == k) with
    | some p => p.2
    | none => .undefined
  | .arr l, k =>
    match k.toNat? with
    | some n => (l.get? n).getD .undefined
    | none => .undefined
  | _, _ => .undefined

/-- The own enumerable fields contributed by a spread `{...v}`: an object
spreads its fields, an array its index properties, `null`/`undefined` and the
remaining primitives that occur on this code path spread nothing. -/
def spreadFields : JsVal → List (String × JsVal)
  | .obj fs => fs
  | .arr l => l.enum.map (fun p => (toString p.1, p.2))
  | _ => []

/-- JavaScript property assignment on an object's field list: overwrite the
first field with the key in place, else append. -/
def setField : List (String × JsVal) → String → JsVal → List (String × JsVal)
  | [], k, v => [(k, v)]
  | p :: rest, k, v => if p.1 == k then (p.1, v) :: rest else p :: setField rest k v

/-- Read a field of an object's field list (first occurrence). -/
def lookupField (fs : List (String × JsVal)) (k : String) : Option JsVal :=
  (fs.find? (fun p => p.1 == k)).map (fun p => p.2)

/-- Spread a value into an object literal under construction: assign each of
its spread fields in order. -/
def spreadInto (acc : List (String × JsVal)) (v : JsVal) : List (String × JsVal) :=
  (spreadFields v).foldl (fun fs p => setField fs p.1 p.2) acc

/-- The tag merge of `processTraceItems` (index.ts line 102-105):
`{...globalTags, ...message.tags}`. -/
def mergeTags (gt : List (String × JsVal)) (tagsVal : JsVal) : List (String × JsVal) :=
  spreadInto (spreadInto [] (.obj gt)) tagsVal

/-- The value the spread of `v` leaves at key `k` (its last spread field with
that key), used to state the override order of `mergeTags`. -/
def lastSpreadLookup (v : JsVal) (k : String) : Option JsVal :=
  ((spreadFields v).reverse.find? (fun p => p.1 == k)).map (fun p => p.2)

/-- First alternative if present, else the second. -/
def overrideLookup (a b : Option JsVal) : Option JsVal :=
  match a with
  | some v => some v
  | none => b

/-- Modelled from the spec: `types.ts` is not under `src/`; the spec (§3)
fixes the metric type set as Count, Gauge and Histogram. -/
inductive MetricType where
  | count
  | gauge
  | histogram
deriving DecidableEq

/-- Modelled from the spec: the runtime values of the `MetricType` enum, one
per member of the set the spec names.  Only their number and distinctness
matter to the claims. -/
def metricTypeJsValues : List JsVal := [.str "count", .str "gauge", .str "histogram"]

/-- Parse a JavaScript value into a `MetricType`; succeeds exactly on the
enum's runtime values. -/
def jsToMetricType : JsVal → Option MetricType
  | .str s =>
    if s = "count" then some .count
    else if s = "gauge" then some .gauge
    else if s = "histogram" then some .histogram
    else none
  | _ => none

/-- Modelled from the spec: `types.ts` is not under `src/`; the metric
diagnostics-channel name is an opaque constant no claim depends on. -/
def metricsChannelName : String := "workers-observability-metrics"

/-- `isValidMetric` (index.ts lines 218-244): the structural validity check
over an unknown diagnostics message.  The final clause is the source's
`typeof metricMsg.tags === "object"`, which `null` and arrays also satisfy. -/
def isValidMetric (message : JsVal) : Bool :=
  if jsStrictEq message .null then false
  else if jsTypeof message != "object" then false
  else if !(hasProp message "type" && hasProp message "name"
      && hasProp message "value" && hasProp message "tags") then false
  else if !(metricTypeJsValues.any (fun v => jsStrictEq v (getProp message "type"))) then false
  else
    jsTypeof (getProp message "value") == "number"
      && jsTypeof (getProp message "name") == "string"
      && jsTypeof (getProp message "tags") == "object"

/-- One stored metric sample as handed to `MetricsDb.storeMetric`: the fields
of the validated message after the tail handler's tag merge and timestamp
override (index.ts lines 100-107), or a synthesized default metric. -/
structure MetricPayload where
  type : MetricType
  name : String
  value : Rat
  tags : List (String × JsVal)
  timestamp : Int
  options : JsVal

/-- Modelled from the spec: scalar tag values serialize to a stable string
(§3 restricts tag values to string, number, boolean or null scalars; the
non-scalar cases never occur on the paths the claims exercise). -/
def serializeTagVal : JsVal → String
  | .null => "null"
  | .undefined => "undefined"
  | .bool b => toString b
  | .num q => toString q
  | .str s => s
  | .obj _ => "object"
  | .arr _ => "array"

/-- Lexicographic order on character lists, by code point. -/
def charListLt : List Char → List Char → Bool
  | [], [] => false
  | [], _ :: _ => true
  | _ :: _, [] => false
  | a :: as, b :: bs =>
    if a.toNat < b.toNat then true
    else if b.toNat < a.toNat then false
    else charListLt as bs

/-- Lexicographic order on strings, by code point. -/
def strLt (a b : String) : Bool := charListLt a.data b.data

/-- Insertion step of the lexicographic sort of tag keys. -/
def insertTagSorted (p : String × JsVal) : List (String × JsVal) → List (String × JsVal)
  | [] => [p]
  | q :: rest => if strLt q.1 p.1 then q :: insertTagSorted p rest else p :: q :: rest

/-- Tags canonicalized by sorting keys lexicographically (spec §3). -/
def sortTags (l : List (String × JsVal)) : List (String × JsVal) :=
  l.foldr insertTagSorted []

def metricTypeName : MetricType → String
  | .count => "count"
  | .gauge => "gauge"
  | .histogram => "histogram"

/-- Modelled from the spec: `metricsDb.ts` is not under `src/`.  The
aggregation key is derived from type, name and the canonicalized tags,
serialized to a stable string (§3). -/
def metricKey (p : MetricPayload) : String :=
  metricTypeName p.type ++ "|" ++ p.name ++ "|"
    ++ String.intercalate "," ((sortTags p.tags).map (fun q => q.1 ++ "=" ++ serializeTagVal q.2))

/-- Modelled from the spec: the aggregated accumulator for one key (§3) —
the combined payload, the sample count and, for histograms, the raw samples. -/
structure AggEntry where
  payload : MetricPayload
  sampleCount : Nat
  samples : List Rat

/-- Modelled from the spec: the aggregation store, a keyed map in insertion
order with at most one entry per aggregation key (§3). -/
abbrev MetricsDb := List (String × AggEntry)

/-- Modelled from the spec: the per-type combination rule (§3) — Count sums
values, Gauge keeps the most recently observed value, Histogram stores every
raw sample. -/
def combineMetric (e : AggEntry) (p : MetricPayload) : AggEntry :=
  match p.type with
  | .count =>
    { e with
      payload := { e.payload with value := e.payload.value + p.value }
      sampleCount := e.sampleCount + 1 }
  | .gauge =>
    { e with
      payload := { e.payload with value := p.value, timestamp := p.timestamp }
      sampleCount := e.sampleCount + 1 }
  | .histogram =>
    { e with sampleCount := e.sampleCount + 1, samples := e.samples ++ [p.value] }

/-- Modelled from the spec: `MetricsDb.storeMetric` (§4.1) — combine into the
existing entry for the payload's key, else insert a fresh entry. -/
def storeMetric (db : MetricsDb) (p : MetricPayload) : MetricsDb :=
  let k := metricKey p
  if db.any (fun q => q.1 == k) then
    db.map (fun q => if q.1 == k then (q.1, combineMetric q.2 p) else q)
  else
    db ++ [(k, { payload := p, sampleCount := 1, samples := [p.value] })]

/-- Modelled from the spec: `MetricsDb.getMetricCount` (§4.1) — the distinct
key cardinality of the store. -/
def getMetricCount (db : MetricsDb) : Nat := db.length

/-- Modelled from the spec: `MetricsDb.toMetricPayloads` (§4.1) — the
finalized read-only export, one entry per aggregated metric.  The claims read
only the snapshot's identity and length, so the histogram aggregate and
percentile resolution of the export entries is left symbolic (the entry
itself, with its samples, stands for its resolved form). -/
def toMetricPayloads (db : MetricsDb) : List AggEntry := db.map (fun q => q.2)

/-- Modelled from the spec: `MetricsDb.clearAll` (§4.1). -/
def clearAll : MetricsDb := []

/-- The settled outcome of one sink's `sendMetrics` promise. -/
inductive SinkOutcome where
  | fulfilled
  | rejected (reason : String)

/-- A sink: one capability, deliver a batch or fail with a reason
(`sinks/sink.ts` interface; the rejection reason stands for the error's
message string). -/
structure MetricSink where
  sendMetrics : List AggEntry → SinkOutcome

/-- One diagnostics-channel event of a trace item. -/
structure DiagnosticsChannelEvent where
  channel : String
  message : JsVal
  timestamp : Int

/-- The fields of a `TraceItem` the tail handler reads. -/
structure TraceItem where
  scriptName : JsVal
  executionModel : JsVal
  outcome : JsVal
  scriptVersionId : JsVal
  trigger : JsVal
  diagnosticsChannelEvents : List DiagnosticsChannelEvent
  cpuTime : Rat
  wallTime : Rat
  eventTimestamp : Int

/-- Modelled from the spec: `utils/cloudflare.ts` is not under `src/`; the
spec (§6) treats the trigger kind as trace-level context carried by the
trace record. -/
def getEventTrigger (t : TraceItem) : JsVal := t.trigger

/-- `MetricTailOptions` (index.ts lines 32-50); `none` is an omitted field. -/
structure MetricTailOptions where
  sinks : List MetricSink
  defaultCpuTime : Option Bool
  defaultWallTime : Option Bool
  defaultWorkersInvocation : Option Bool
  maxBufferSize : Option Int
  maxBufferDuration : Option Int

/-- JavaScript `x || d` over an optional number: `undefined` and `0` are
falsy and yield the default. -/
def jsOrNum (v : Option Int) (d : Int) : Int :=
  match v with
  | none => d
  | some x => if x = 0 then d else x

/-- JavaScript `x || now` over a number (`traceItem.eventTimestamp || Date.now()`). -/
def jsOrNow (v : Int) (now : Int) : Int := if v = 0 then now else v

/-- One armed flush timer: the generation `++this.#flushId` captured when the
`scheduleFlush` closure started, and the wait it performs. -/
structure TimerRec where
  gen : Nat
  durationMs : Int
deriving DecidableEq

/-- The state of a `MetricsTail` instance, together with the pending armed
timers of the runtime and the observation channels used to state the claims:
`flushes` logs every `#performFlush` invocation with its snapshot,
`sinkCalls` logs every `sendMetrics` invocation with its batch, `errorLogs`
the `console.error` reports of failed fanouts, and `warnCount` the
`console.warn` calls for dropped invalid messages. -/
structure TailState where
  metricSinks : List MetricSink
  maxBufferSize : Int
  maxBufferDuration : Int
  defaultCpuTime : Bool
  defaultWallTime : Bool
  defaultWorkersInvocation : Bool
  flushId : Nat
  metrics : MetricsDb
  flushScheduled : Bool
  timers : List TimerRec
  flushes : List (List AggEntry)
  sinkCalls : List (List AggEntry)
  errorLogs : List String
  warnCount : Nat

/-- The `MetricsTail` constructor (index.ts lines 65-76). -/
def mkMetricsTail (o : MetricTailOptions) : TailState :=
  { metricSinks := o.sinks
    maxBufferSize := jsOrNum o.maxBufferSize 100
    maxBufferDuration := min (jsOrNum o.maxBufferDuration 5) 30
    defaultCpuTime := o.defaultCpuTime != some false
    defaultWallTime := o.defaultWallTime != some false
    defaultWorkersInvocation := o.defaultWorkersInvocation != some false
    flushId := 0
    metrics := []
    flushScheduled := false
    timers := []
    flushes := []
    sinkCalls := []
    errorLogs := []
    warnCount := 0 }

/-- The `globalTags` object literal of `processTraceItems` (index.ts lines
86-92). -/
def globalTagsOf (t : TraceItem) : List (String × JsVal) :=
  [("scriptName", t.scriptName), ("executionModel", t.executionModel),
   ("outcome", t.outcome), ("versionId", t.scriptVersionId),
   ("trigger", getEventTrigger t)]

def jsValToString : JsVal → String
  | .str s => s
  | _ => ""

def jsValToRat : JsVal → Rat
  | .num q => q
  | _ => 0

/-- The payload `processTraceItems` hands to `storeMetric` for a valid
message (index.ts lines 100-107): the message's fields with the tag merge
`{...globalTags, ...message.tags}` and the event's timestamp. -/
def toStoredPayload (gt : List (String × JsVal)) (e : DiagnosticsChannelEvent) :
    MetricPayload :=
  { type := (jsToMetricType (getProp e.message "type")).getD .count
    name := jsValToString (getProp e.message "name")
    value := jsValToRat (getProp e.message "value")
    tags := mergeTags gt (getProp e.message "tags")
    timestamp := e.timestamp
    options := getProp e.message "options" }

/-- The per-event body of the ingestion loop (index.ts lines 97-111): store a
valid message, warn and drop an invalid one. -/
def ingestEvent (gt : List (String × JsVal)) (s : TailState)
    (e : DiagnosticsChannelEvent) : TailState :=
  if isValidMetric e.message then
    { s with metrics := storeMetric s.metrics (toStoredPayload gt e) }
  else
    { s with warnCount := s.warnCount + 1 }

/-- The ingestion loop over a trace item's metric-channel events. -/
def ingestEvents (gt : List (String × JsVal)) (s : TailState)
    (es : List DiagnosticsChannelEvent) : TailState :=
  es.foldl (ingestEvent gt) s

/-- The `options` literal of the default histogram metrics (index.ts lines
186-189 and 200-203). -/
def defaultHistogramOptions : JsVal :=
  .obj [("aggregates", .arr [.str "max", .str "min", .str "avg"]),
        ("percentiles", .arr [.num (1/2), .num (3/4), .num (9/10), .num (19/20),
                              .num (99/100)])]

/-- `#addDefaultMetrics` (index.ts lines 175-215): synthesize the enabled
default metrics for a trace item, tagged with the global tags. -/
def addDefaultMetrics (s : TailState) (t : TraceItem) (gt : List (String × JsVal))
    (now : Int) : TailState :=
  let cpuPayload : MetricPayload :=
    { type := .histogram, name := "worker.cpu_time", value := t.cpuTime,
      tags := gt, timestamp := jsOrNow t.eventTimestamp now,
      options := defaultHistogramOptions }
  let wallPayload : MetricPayload :=
    { type := .histogram, name := "worker.wall_time", value := t.wallTime,
      tags := gt, timestamp := jsOrNow t.eventTimestamp now,
      options := defaultHistogramOptions }
  let invPayload : MetricPayload :=
    { type := .count, name := "worker.invocation", value := 1,
      tags := gt, timestamp := jsOrNow t.eventTimestamp now,
      options := .undefined }
  let s1 :=
    if s.defaultCpuTime then
      { s with metrics := storeMetric s.metrics cpuPayload }
    else s
  let s2 :=
    if s1.defaultWallTime then
      { s1 with metrics := storeMetric s1.metrics wallPayload }
    else s1
  if s2.defaultWorkersInvocation then
    { s2 with metrics := storeMetric s2.metrics invPayload }
  else s2

/-- The body of the `for (const traceItem of traceItems)` loop (index.ts
lines 79-112): filter the metric-channel events, add the default metrics,
ingest each event. -/
def processOneTraceItem (s : TailState) (t : TraceItem) (now : Int) : TailState :=
  let metricEvents := t.diagnosticsChannelEvents.filter
    (fun e => e.channel == metricsChannelName)
  let gt := globalTagsOf t
  ingestEvents gt (addDefaultMetrics s t gt now) metricEvents

/-- The ingestion phase of `processTraceItems`: the whole trace-item loop,
before the flush decision. -/
def ingestOnly (s : TailState) (items : List TraceItem) (now : Int) : TailState :=
  items.foldl (fun s t => processOneTraceItem s t now) s

/-- The failure reasons collected by `#performFlush` from the settled sink
promises (index.ts lines 160-167): the rejection reasons of
`sinks.map(sink => sink.sendMetrics(items))`, in sink order.  Every sink's
`sendMetrics` is invoked; `Promise.allSettled` never short-circuits. -/
def sinkFailures (sinks : List MetricSink) (items : List AggEntry) : List String :=
  (sinks.map (fun sink => sink.sendMetrics items)).filterMap
    (fun r => match r with | .rejected reason => some reason | .fulfilled => none)

/-- The combined error report of a failed fanout (index.ts line 168). -/
def flushErrorMessage (reasons : List String) : String :=
  "Failed to flush metrics to " ++ toString reasons.length ++ " sink(s): "
    ++ String.intercalate ", " reasons

/-- `#performFlush` (index.ts lines 147-173): snapshot the store, reset the
scheduled flag, clear the store — all before the first suspension point —
then, unless the snapshot is empty, fan the snapshot out to every sink, wait
for all to settle, and log one combined error report if any sink rejected.
The `catch` around `Promise.allSettled` is unreachable (`allSettled` never
rejects) and is not modelled. -/
def performFlush (s : TailState) : TailState :=
  let items := toMetricPayloads s.metrics
  let s1 := { s with flushScheduled := false, metrics := clearAll,
                     flushes := s.flushes ++ [items] }
  if items.length = 0 then s1
  else
    let s2 := { s1 with
      sinkCalls := s1.sinkCalls ++ s1.metricSinks.map (fun _ => items) }
    let reasons := sinkFailures s1.metricSinks items
    if reasons.length > 0 then
      { s2 with errorLogs := s2.errorLogs ++ [flushErrorMessage reasons] }
    else s2

/-- `processTraceItems` (index.ts lines 78-145) as one synchronous step:
ingest every trace item, then either flush immediately (store at or over
`maxBufferSize`: drop the scheduled flag, bump the generation, run
`#performFlush` now), or coalesce into the already scheduled flush, or — if
idle and the store is non-empty — arm a timer, capturing the post-increment
generation `++this.#flushId` and the wait `maxBufferDuration * 1000`. -/
def processTraceItems (s0 : TailState) (items : List TraceItem) (now : Int) :
    TailState :=
  let s := ingestOnly s0 items now
  if (getMetricCount s.metrics : Int) ≥ s.maxBufferSize then
    performFlush { s with flushScheduled := false, flushId := s.flushId + 1 }
  else if s.flushScheduled then s
  else if 0 < getMetricCount s.metrics then
    { s with flushScheduled := true, flushId := s.flushId + 1,
             timers := s.timers
               ++ [{ gen := s.flushId + 1, durationMs := s.maxBufferDuration * 1000 }] }
  else s

/-- The continuation of the `i`-th armed timer after its `scheduler.wait`
(index.ts lines 135-139): the timer is spent; if its captured generation
still equals the live `#flushId`, perform the flush, otherwise do nothing. -/
def timerFire (s : TailState) (i : Nat) : TailState :=
  match s.timers[i]? with
  | none => s
  | some t =>
    let s1 := { s with timers := s.timers.eraseIdx i }
    if t.gen = s1.flushId then performFlush s1 else s1

/-- The states a `MetricsTail` instance can reach: freshly constructed, after
a `processTraceItems` call, or after an armed timer's continuation ran. -/
inductive Reach : TailState → Prop where
  | construct (o : MetricTailOptions) : Reach (mkMetricsTail o)
  | ingest {s : TailState} (items : List TraceItem) (now : Int) :
      Reach s → Reach (processTraceItems s items now)
  | fire {s : TailState} (i : Nat) : Reach s → Reach (timerFire s i)

/-- Two tail states agreeing on every field the ingestion loop never writes
(everything except the store and the warning count). -/
structure CtrlEq (a b : TailState) : Prop where
  sinks : a.metricSinks = b.metricSinks
  maxSize : a.maxBufferSize = b.maxBufferSize
  maxDur : a.maxBufferDuration = b.maxBufferDuration
  dCpu : a.defaultCpuTime = b.defaultCpuTime
  dWall : a.defaultWallTime = b.defaultWallTime
  dInv : a.defaultWorkersInvocation = b.defaultWorkersInvocation
  fid : a.flushId = b.flushId
  sched : a.flushScheduled = b.flushScheduled
  tmrs : a.timers = b.timers
  fl : a.flushes = b.flushes
  sc : a.sinkCalls = b.sinkCalls
  el : a.errorLogs = b.errorLogs

theorem ctrlEq_refl (a : TailState) : CtrlEq a a :=
  ⟨rfl, rfl, rfl, rfl, rfl, rfl, rfl, rfl, rfl, rfl, rfl, rfl⟩

theorem ctrlEq_trans {a b c : TailState} (h1 : CtrlEq a b) (h2 : CtrlEq b c) :
    CtrlEq a c :=
  ⟨h1.sinks.trans h2.sinks, h1.maxSize.trans h2.maxSize, h1.maxDur.trans h2.maxDur,
   h1.dCpu.trans h2.dCpu, h1.dWall.trans h2.dWall, h1.dInv.trans h2.dInv,
   h1.fid.trans h2.fid, h1.sched.trans h2.sched, h1.tmrs.trans h2.tmrs,
   h1.fl.trans h2.fl, h1.sc.trans h2.sc, h1.el.trans h2.el⟩

theorem ingestEvent_ctrl (gt : List (String × JsVal)) (s : TailState)
    (e : DiagnosticsChannelEvent) : CtrlEq (ingestEvent gt s e) s := by
  unfold ingestEvent
  split <;> exact ⟨rfl, rfl, rfl, rfl, rfl, rfl, rfl, rfl, rfl, rfl, rfl, rfl⟩

theorem ingestEvents_ctrl (gt : List (String × JsVal)) (s : TailState)
    (es : List DiagnosticsChannelEvent) : CtrlEq (ingestEvents gt s es) s := by
  induction es generalizing s with
  | nil => exact ctrlEq_refl _
  | cons e rest ih =>
    exact ctrlEq_trans (ih (ingestEvent gt s e)) (ingestEvent_ctrl gt s e)

theorem addDefaultMetrics_ctrl (s : TailState) (t : TraceItem)
    (gt : List (String × JsVal)) (now : Int) :
    CtrlEq (addDefaultMetrics s t gt now) s := by
  unfold addDefaultMetrics
  dsimp only
  split <;> split <;> split
    <;> exact ⟨rfl, rfl, rfl, rfl, rfl, rfl, rfl, rfl, rfl, rfl, rfl, rfl⟩

theorem processOneTraceItem_ctrl (s : TailState) (t : TraceItem) (now : Int) :
    CtrlEq (processOneTraceItem s t now) s := by
  unfold processOneTraceItem
  exact ctrlEq_trans (ingestEvents_ctrl _ _ _) (addDefaultMetrics_ctrl _ _ _ _)

theorem ingestOnly_ctrl (s : TailState) (items : List TraceItem) (now : Int) :
    CtrlEq (ingestOnly s items now) s := by
  induction items generalizing s with
  | nil => exact ctrlEq_refl _
  | cons t rest ih =>
    exact ctrlEq_trans (ih (processOneTraceItem s t now)) (processOneTraceItem_ctrl s t now)

/-- The synchronous prefix of `#performFlush`: snapshot logged, scheduled
flag dropped, store cleared — and the fields the flush never writes. -/
theorem performFlush_base (s : TailState) :
    (performFlush s).metrics = clearAll
      ∧ (performFlush s).flushScheduled = false
      ∧ (performFlush s).flushes = s.flushes ++ [toMetricPayloads s.metrics]
      ∧ (performFlush s).flushId = s.flushId
      ∧ (performFlush s).timers = s.timers
      ∧ (performFlush s).metricSinks = s.metricSinks
      ∧ (performFlush s).maxBufferSize = s.maxBufferSize
      ∧ (performFlush s).maxBufferDuration = s.maxBufferDuration
      ∧ (performFlush s).warnCount = s.warnCount := by
  unfold performFlush
  dsimp only
  split
  · exact ⟨rfl, rfl, rfl, rfl, rfl, rfl, rfl, rfl, rfl⟩
  · split <;> exact ⟨rfl, rfl, rfl, rfl, rfl, rfl, rfl, rfl, rfl⟩

/-- `processTraceItems` when the ingested store reaches `maxBufferSize`:
the immediate-flush branch. -/
theorem processTraceItems_big (s : TailState) (items : List TraceItem) (now : Int)
    (h : (getMetricCount (ingestOnly s items now).metrics : Int) ≥ s.maxBufferSize) :
    processTraceItems s items now
      = performFlush { ingestOnly s items now with
                       flushScheduled := false, flushId := s.flushId + 1 } := by
  have hc := ingestOnly_ctrl s items now
  unfold processTraceItems
  dsimp only
  rw [if_pos (by rw [hc.maxSize]; exact h), hc.fid]

/-- `processTraceItems` when the store stays below `maxBufferSize` and a
flush is already scheduled: pure coalescing. -/
theorem processTraceItems_coalesce (s : TailState) (items : List TraceItem) (now : Int)
    (hlt : (getMetricCount (ingestOnly s items now).metrics : Int) < s.maxBufferSize)
    (hsched : s.flushScheduled = true) :
    processTraceItems s items now = ingestOnly s items now := by
  have hc := ingestOnly_ctrl s items now
  unfold processTraceItems
  dsimp only
  rw [if_neg (by rw [hc.maxSize]; omega), if_pos (hc.sched.trans hsched)]

/-- `processTraceItems` when the store stays below `maxBufferSize`, no flush
is scheduled and the store is non-empty: the timer-arming branch. -/
theorem processTraceItems_arm (s : TailState) (items : List TraceItem) (now : Int)
    (hlt : (getMetricCount (ingestOnly s items now).metrics : Int) < s.maxBufferSize)
    (hidle : s.flushScheduled = false)
    (hpos : 0 < getMetricCount (ingestOnly s items now).metrics) :
    processTraceItems s items now
      = { ingestOnly s items now with
          flushScheduled := true, flushId := s.flushId + 1,
          timers := s.timers
            ++ [{ gen := s.flushId + 1, durationMs := s.maxBufferDuration * 1000 }] } := by
  have hc := ingestOnly_ctrl s items now
  unfold processTraceItems
  dsimp only
  rw [if_neg (by rw [hc.maxSize]; omega)]
  rw [if_neg (by rw [hc.sched, hidle]; exact Bool.false_ne_true), if_pos hpos]
  rw [hc.fid, hc.tmrs, hc.maxDur]

/-- `processTraceItems` when the ingested store is empty, below the
threshold, and no flush is scheduled: no flush work at all. -/
theorem processTraceItems_idleEmpty (s : TailState) (items : List TraceItem) (now : Int)
    (hlt : (getMetricCount (ingestOnly s items now).metrics : Int) < s.maxBufferSize)
    (hidle : s.flushScheduled = false)
    (hzero : getMetricCount (ingestOnly s items now).metrics = 0) :
    processTraceItems s items now = ingestOnly s items now := by
  have hc := ingestOnly_ctrl s items now
  unfold processTraceItems
  dsimp only
  rw [if_neg (by rw [hc.maxSize]; omega)]
  rw [if_neg (by rw [hc.sched, hidle]; exact Bool.false_ne_true), if_neg (by omega)]

/-- Every armed timer's captured generation is bounded by the live one. -/
def TimersGenBound (s : TailState) : Prop := ∀ t ∈ s.timers, t.gen ≤ s.flushId

/-- The number of armed timers whose captured generation is still live, i.e.
whose wake-up would perform a flush. -/
def liveTimerCount (s : TailState) : Nat :=
  (s.timers.filter (fun t => t.gen == s.flushId)).length

/-- The scheduler invariant: timer generations never exceed the live one, and
exactly one live timer is pending when a flush is scheduled, none otherwise. -/
def SchedInv (s : TailState) : Prop :=
  TimersGenBound s ∧ liveTimerCount s = cond s.flushScheduled 1 0

theorem filter_gen_none {l : List TimerRec} {n m : Nat}
    (hb : ∀ t ∈ l, t.gen ≤ n) (hm : n < m) :
    (l.filter (fun t => t.gen == m)).length = 0 := by
  rw [List.length_eq_zero, List.filter_eq_nil_iff]
  intro t ht
  have := hb t ht
  simp only [beq_iff_eq]
  omega

theorem length_filter_eraseIdx {α : Type} (p : α → Bool) :
    ∀ (l : List α) (i : Nat) (t : α), l[i]? = some t →
      (l.filter p).length
        = ((l.eraseIdx i).filter p).length + (if p t = true then 1 else 0) := by
  intro l
  induction l with
  | nil => intro i t h; simp at h
  | cons x xs ih =>
    intro i t h
    cases i with
    | zero =>
      simp only [List.getElem?_cons_zero, Option.some_inj] at h
      subst h
      simp only [List.eraseIdx_cons_zero, List.filter_cons]
      split <;> simp_all
    | succ j =>
      simp only [List.getElem?_cons_succ] at h
      simp only [List.eraseIdx_cons_succ, List.filter_cons]
      by_cases hx : p x = true
      · simp only [if_pos hx, List.length_cons, ih j t h]
        omega
      · simp only [if_neg hx]
        exact ih j t h


theorem performFlush_metrics (s : TailState) : (performFlush s).metrics = clearAll :=
  (performFlush_base s).1

theorem performFlush_flushScheduled (s : TailState) :
    (performFlush s).flushScheduled = false :=
  (performFlush_base s).2.1

theorem performFlush_flushes (s : TailState) :
    (performFlush s).flushes = s.flushes ++ [toMetricPayloads s.metrics] :=
  (performFlush_base s).2.2.1

theorem performFlush_flushId (s : TailState) : (performFlush s).flushId = s.flushId :=
  (performFlush_base s).2.2.2.1

theorem performFlush_timers (s : TailState) : (performFlush s).timers = s.timers :=
  (performFlush_base s).2.2.2.2.1

theorem performFlush_metricSinks (s : TailState) :
    (performFlush s).metricSinks = s.metricSinks :=
  (performFlush_base s).2.2.2.2.2.1

/-- Every reachable state of a `MetricsTail` instance satisfies the scheduler
invariant. -/
theorem reach_schedInv {s : TailState} (h : Reach s) : SchedInv s := by
  induction h with
  | construct o =>
    refine ⟨fun t ht => ?_, ?_⟩
    · simp [mkMetricsTail] at ht
    · simp [liveTimerCount, mkMetricsTail]
  | ingest items now _ ih =>
    rename_i s _
    obtain ⟨hb, hl⟩ := ih
    have hc := ingestOnly_ctrl s items now
    by_cases hbig : (getMetricCount (ingestOnly s items now).metrics : Int) ≥ s.maxBufferSize
    · rw [processTraceItems_big s items now hbig]
      refine ⟨fun t ht => ?_, ?_⟩
      · rw [performFlush_timers] at ht
        rw [performFlush_flushId]
        dsimp only at ht ⊢
        rw [hc.tmrs] at ht
        have := hb t ht
        omega
      · unfold liveTimerCount
        rw [performFlush_timers, performFlush_flushId, performFlush_flushScheduled]
        dsimp only
        rw [hc.tmrs]
        exact filter_gen_none hb (Nat.lt_succ_self _)
    · have hlt : (getMetricCount (ingestOnly s items now).metrics : Int) < s.maxBufferSize := by
        omega
      by_cases hsched : s.flushScheduled = true
      · rw [processTraceItems_coalesce s items now hlt hsched]
        refine ⟨fun t ht => ?_, ?_⟩
        · rw [hc.tmrs] at ht
          rw [hc.fid]
          exact hb t ht
        · unfold liveTimerCount
          rw [hc.tmrs, hc.fid, hc.sched]
          exact hl
      · have hidle : s.flushScheduled = false := by
          simp only [Bool.not_eq_true] at hsched
          exact hsched
        by_cases hpos : 0 < getMetricCount (ingestOnly s items now).metrics
        · rw [processTraceItems_arm s items now hlt hidle hpos]
          refine ⟨fun t ht => ?_, ?_⟩
          · dsimp only at ht ⊢
            rw [List.mem_append] at ht
            rcases ht with ht | ht
            · have := hb t ht
              omega
            · simp only [List.mem_singleton] at ht
              subst ht
              exact le_refl _
          · unfold liveTimerCount
            dsimp only
            rw [List.filter_append]
            rw [List.length_append]
            rw [filter_gen_none hb (Nat.lt_succ_self _)]
            simp
        · have hzero : getMetricCount (ingestOnly s items now).metrics = 0 := by omega
          rw [processTraceItems_idleEmpty s items now hlt hidle hzero]
          refine ⟨fun t ht => ?_, ?_⟩
          · rw [hc.tmrs] at ht
            rw [hc.fid]
            exact hb t ht
          · unfold liveTimerCount
            rw [hc.tmrs, hc.fid, hc.sched]
            exact hl
  | fire i _ ih =>
    rename_i s _
    obtain ⟨hb, hl⟩ := ih
    unfold liveTimerCount at hl
    unfold timerFire
    cases hgi : s.timers[i]? with
    | none => exact ⟨hb, hl⟩
    | some tr =>
      dsimp only
      have hmem : tr ∈ s.timers := List.getElem?_mem hgi
      have hsplit := length_filter_eraseIdx (fun t => t.gen == s.flushId) s.timers i tr hgi
      dsimp only at hsplit
      by_cases hgen : tr.gen = s.flushId
      · rw [if_pos hgen]
        refine ⟨fun u hu => ?_, ?_⟩
        · rw [performFlush_timers] at hu
          rw [performFlush_flushId]
          dsimp only at hu ⊢
          exact hb u ((List.eraseIdx_sublist s.timers i).mem hu)
        · unfold liveTimerCount
          rw [performFlush_timers, performFlush_flushId, performFlush_flushScheduled]
          dsimp only
          simp only [Bool.cond_false]
          have hpt : (tr.gen == s.flushId) = true := beq_iff_eq.mpr hgen
          simp only [hpt, if_true] at hsplit
          have hpos : 0 < (s.timers.filter (fun t => t.gen == s.flushId)).length := by
            have hin : tr ∈ s.timers.filter (fun t => t.gen == s.flushId) :=
              List.mem_filter.mpr ⟨hmem, hpt⟩
            exact List.length_pos.mpr (List.ne_nil_of_mem hin)
          cases hcase : s.flushScheduled with
          | false =>
            rw [hcase] at hl
            simp only [Bool.cond_false] at hl
            omega
          | true =>
            rw [hcase] at hl
            simp only [Bool.cond_true] at hl
            omega
      · rw [if_neg hgen]
        refine ⟨fun u hu => ?_, ?_⟩
        · dsimp only at hu ⊢
          exact hb u ((List.eraseIdx_sublist s.timers i).mem hu)
        · unfold liveTimerCount
          dsimp only
          have hpt : (tr.gen == s.flushId) = false := beq_eq_false_iff_ne.mpr hgen
          simp only [hpt, Bool.false_eq_true, if_false, Nat.add_zero] at hsplit
          rw [← hsplit]
          exact hl

theorem lookupField_setField (fs : List (String × JsVal)) (k : String) (v : JsVal)
    (q : String) :
    lookupField (setField fs k v) q = if k = q then some v else lookupField fs q := by
  induction fs with
  | nil =>
    by_cases hk : k = q
    · subst hk
      simp [setField, lookupField]
    · simp [setField, lookupField, hk]
  | cons p rest ih =>
    by_cases hp : p.1 = k
    · unfold setField
      rw [if_pos (beq_iff_eq.mpr hp)]
      by_cases hk : k = q
      · subst hk
        simp [lookupField, hp]
      · have hpq : ¬ p.1 = q := by rw [hp]; exact hk
        simp [lookupField, hpq, hk]
    · unfold setField
      rw [if_neg (by simpa using hp)]
      by_cases hpq : p.1 = q
      · simp [lookupField, hpq, show ¬ k = q from fun h => hp (hpq.trans h.symm)]
      · simp only [lookupField, List.find?_cons, show (p.1 == q) = false from
          beq_eq_false_iff_ne.mpr hpq]
        exact ih

theorem lookupField_foldl_setField (l : List (String × JsVal)) :
    ∀ (acc : List (String × JsVal)) (q : String),
      lookupField (l.foldl (fun fs p => setField fs p.1 p.2) acc) q
        = overrideLookup ((l.reverse.find? (fun p => p.1 == q)).map (fun p => p.2))
            (lookupField acc q) := by
  induction l with
  | nil =>
    intro acc q
    simp [overrideLookup]
  | cons p rest ih =>
    intro acc q
    simp only [List.foldl_cons, List.reverse_cons]
    rw [ih, List.find?_append]
    cases hfind : rest.reverse.find? (fun p => p.1 == q) with
    | some r => simp [overrideLookup]
    | none =>
      simp only [Option.none_or]
      rw [lookupField_setField]
      by_cases hp : p.1 = q
      · simp [overrideLookup, List.find?, beq_iff_eq.mpr hp, hp]
      · simp [overrideLookup, List.find?, beq_eq_false_iff_ne.mpr hp, hp]

/-- The lookup law of one spread: the spread's last field with the key wins,
else the accumulator's value survives. -/
theorem lookupField_spreadInto (acc : List (String × JsVal)) (v : JsVal) (q : String) :
    lookupField (spreadInto acc v) q
      = overrideLookup (lastSpreadLookup v q) (lookupField acc q) := by
  unfold spreadInto lastSpreadLookup
  exact lookupField_foldl_setField _ _ _

theorem find?_reverse_of_nodupKeys :
    ∀ (l : List (String × JsVal)), (l.map Prod.fst).Nodup →
      ∀ q, l.reverse.find? (fun p => p.1 == q) = l.find? (fun p => p.1 == q) := by
  intro l
  induction l with
  | nil => intro _ _; rfl
  | cons p rest ih =>
    intro hnd q
    simp only [List.map_cons, List.nodup_cons] at hnd
    obtain ⟨hnotin, hnd⟩ := hnd
    simp only [List.reverse_cons]
    rw [List.find?_append, ih hnd q]
    by_cases hp : p.1 = q
    · have hrest : rest.find? (fun p => p.1 == q) = none := by
        rw [List.find?_eq_none]
        intro x hx
        simp only [beq_iff_eq]
        intro hxq
        exact hnotin (hxq.trans hp.symm ▸ List.mem_map_of_mem Prod.fst hx)
      rw [hrest]
      simp [List.find?, beq_iff_eq.mpr hp]
    · simp only [List.find?_cons, show (p.1 == q) = false from beq_eq_false_iff_ne.mpr hp]
      cases rest.find? (fun p => p.1 == q) <;> rfl

theorem globalTags_nodupKeys (t : TraceItem) :
    ((globalTagsOf t).map Prod.fst).Nodup := by
  simp [globalTagsOf]

/-- Looking a key up in the merged tag object: the message's own tags win,
else the trace-derived global tags answer. -/
theorem lookupField_mergeTags (t : TraceItem) (tagsVal : JsVal) (q : String) :
    lookupField (mergeTags (globalTagsOf t) tagsVal) q
      = overrideLookup (lastSpreadLookup tagsVal q) (lookupField (globalTagsOf t) q) := by
  unfold mergeTags
  rw [lookupField_spreadInto, lookupField_spreadInto]
  have hbase : lastSpreadLookup (.obj (globalTagsOf t)) q
      = lookupField (globalTagsOf t) q := by
    unfold lastSpreadLookup lookupField spreadFields
    rw [find?_reverse_of_nodupKeys (globalTagsOf t) (globalTags_nodupKeys t) q]
  rw [hbase]
  cases lastSpreadLookup tagsVal q with
  | some v => rfl
  | none =>
    cases lookupField (globalTagsOf t) q with
    | some v => rfl
    | none => rfl

/-- A sink that always fulfils. -/
def okSinkA : MetricSink := { sendMetrics := fun _ => .fulfilled }

/-- A second always-fulfilling sink, distinct from `okSinkA` in role only. -/
def okSinkB : MetricSink := { sendMetrics := fun _ => .fulfilled }

/-- A sink that always rejects with reason `boom`. -/
def failSink : MetricSink := { sendMetrics := fun _ => .rejected "boom" }

/-- Concrete constructor options used by the witnesses: one sink, a buffer
size of 4, everything else defaulted. -/
def demoOptions : MetricTailOptions :=
  { sinks := [okSinkA], defaultCpuTime := none, defaultWallTime := none,
    defaultWorkersInvocation := none, maxBufferSize := some 4,
    maxBufferDuration := none }

/-- A freshly constructed tail instance for the witnesses. -/
def demoState : TailState := mkMetricsTail demoOptions

/-- A trace item with no diagnostics events; its default metrics are keyed by
the script name, so different names yield disjoint aggregation keys. -/
def demoTrace (sn : String) : TraceItem :=
  { scriptName := .str sn, executionModel := .str "stateless", outcome := .str "ok",
    scriptVersionId := .undefined, trigger := .str "fetch",
    diagnosticsChannelEvents := [], cpuTime := 2, wallTime := 3, eventTimestamp := 5 }

/-- A trace item for the tag-merge witness. -/
def wTagTrace : TraceItem :=
  { scriptName := .str "w", executionModel := .str "stateless", outcome := .str "ok",
    scriptVersionId := .undefined, trigger := .str "fetch",
    diagnosticsChannelEvents := [], cpuTime := 1, wallTime := 1, eventTimestamp := 1 }

/-- A valid metric event whose own tags collide with the trace-derived
`outcome` tag. -/
def wTagEvent : DiagnosticsChannelEvent :=
  { channel := metricsChannelName
    message := .obj [("type", .str "count"), ("name", .str "m"), ("value", .num 1),
                     ("tags", .obj [("outcome", .str "override"), ("extra", .num 7)])]
    timestamp := 3 }

/-- Claim C10: for every valid metric event ingested from a trace, the stored
metric's tags are the union of the trace-derived global tags and the event's
own tags, and on a colliding tag key the event's own value overrides the
trace-derived one. -/
theorem claim10_tag_merge_precedence (t : TraceItem) (e : DiagnosticsChannelEvent)
    (k : String) (_hv : isValidMetric e.message = true) :
    lookupField (toStoredPayload (globalTagsOf t) e).tags k
      = overrideLookup (lastSpreadLookup (getProp e.message "tags") k)
          (lookupField (globalTagsOf t) k) := by
  unfold toStoredPayload
  dsimp only
  exact lookupField_mergeTags t (getProp e.message "tags") k

theorem claim10_witness :
    isValidMetric wTagEvent.message = true
      ∧ lookupField (toStoredPayload (globalTagsOf wTagTrace) wTagEvent).tags "outcome"
          = overrideLookup (lastSpreadLookup (getProp wTagEvent.message "tags") "outcome")
              (lookupField (globalTagsOf wTagTrace) "outcome") :=
  ⟨by decide, claim10_tag_merge_precedence wTagTrace wTagEvent "outcome" (by decide)⟩

/-- Claim C2: `#performFlush` snapshots and clears the store as one atomic
step (no suspension point separates index.ts lines 148 and 152): the flushed
snapshot is exactly the pre-flush export, the store is empty immediately
afterwards, a second flush with no intervening ingestion carries the empty
snapshot — so no accepted event is counted in two flushes — and an event
ingested after a flush is absent from that flush and begins accumulating
into the fresh next window. -/
theorem claim2_snapshot_and_clear (s : TailState) :
    (performFlush s).metrics = clearAll
  ∧ (performFlush s).flushes = s.flushes ++ [toMetricPayloads s.metrics]
  ∧ (performFlush (performFlush s)).flushes
      = s.flushes ++ [toMetricPayloads s.metrics] ++ [[]]
  ∧ (∀ gt e, (ingestEvent gt (performFlush s) e).flushes
      = s.flushes ++ [toMetricPayloads s.metrics])
  ∧ (∀ gt e, isValidMetric e.message = true →
      (ingestEvent gt (performFlush s) e).metrics
        = storeMetric clearAll (toStoredPayload gt e)) := by
  refine ⟨performFlush_metrics s, performFlush_flushes s, ?_, ?_, ?_⟩
  · rw [performFlush_flushes, performFlush_flushes, performFlush_metrics]
    rfl
  · intro gt e
    rw [(ingestEvent_ctrl gt (performFlush s) e).fl, performFlush_flushes]
  · intro gt e hv
    unfold ingestEvent
    rw [if_pos hv]
    dsimp only
    rw [performFlush_metrics]

theorem claim2_witness :
    (ingestEvent [] (performFlush demoState) wTagEvent).metrics
      = storeMetric clearAll (toStoredPayload [] wTagEvent) :=
  (claim2_snapshot_and_clear demoState).2.2.2.2 [] wTagEvent (by decide)

/-- Claim C6: running the flush path while the store is empty (the exported
snapshot has zero entries) issues zero calls to any sink and reports no
error. -/
theorem claim6_empty_flush_suppression (s : TailState)
    (h : (toMetricPayloads s.metrics).length = 0) :
    (performFlush s).sinkCalls = s.sinkCalls
  ∧ (performFlush s).errorLogs = s.errorLogs := by
  unfold performFlush
  dsimp only
  rw [if_pos h]
  exact ⟨rfl, rfl⟩

theorem claim6_witness :
    (performFlush demoState).sinkCalls = demoState.sinkCalls
  ∧ (performFlush demoState).errorLogs = demoState.errorLogs :=
  claim6_empty_flush_suppression demoState (by decide)

/-- Claim C5: with a non-empty snapshot, `#performFlush` invokes every
configured sink's `sendMetrics` once with the full snapshot — settling all of
them with no short-circuit on a failure, so one sink's failure never prevents
another's attempt — and, when one or more sinks reject, appends exactly one
combined error report built from the failure count and every failure's
reason. -/
theorem claim5_sink_fanout (s : TailState)
    (hne : 0 < (toMetricPayloads s.metrics).length) :
    (performFlush s).sinkCalls
      = s.sinkCalls ++ s.metricSinks.map (fun _ => toMetricPayloads s.metrics)
  ∧ (performFlush s).sinkCalls.length = s.sinkCalls.length + s.metricSinks.length
  ∧ ((sinkFailures s.metricSinks (toMetricPayloads s.metrics)).length = 0 →
      (performFlush s).errorLogs = s.errorLogs)
  ∧ (0 < (sinkFailures s.metricSinks (toMetricPayloads s.metrics)).length →
      (performFlush s).errorLogs
        = s.errorLogs
          ++ [flushErrorMessage (sinkFailures s.metricSinks (toMetricPayloads s.metrics))]) := by
  unfold performFlush
  dsimp only
  rw [if_neg (by omega)]
  refine ⟨?_, ?_, ?_, ?_⟩
  · split <;> rfl
  · split <;> simp
  · intro h0
    rw [if_neg (by omega)]
  · intro hpos
    rw [if_pos (by omega)]

/-- One aggregated count metric, used to populate the fanout witness. -/
def wPayloadCount : MetricPayload :=
  { type := .count, name := "m", value := 1, tags := [("k", .str "v")],
    timestamp := 0, options := .undefined }

/-- A tail state with three sinks — the middle one always failing — and one
buffered metric. -/
def fanoutState : TailState :=
  { mkMetricsTail
      { sinks := [okSinkA, failSink, okSinkB], defaultCpuTime := none,
        defaultWallTime := none, defaultWorkersInvocation := none,
        maxBufferSize := none, maxBufferDuration := none } with
    metrics := storeMetric clearAll wPayloadCount }

theorem claim5_witness :
    (performFlush fanoutState).sinkCalls.length
        = fanoutState.sinkCalls.length + fanoutState.metricSinks.length
      ∧ (performFlush fanoutState).errorLogs
        = fanoutState.errorLogs
          ++ [flushErrorMessage (sinkFailures fanoutState.metricSinks
               (toMetricPayloads fanoutState.metrics))] :=
  ⟨(claim5_sink_fanout fanoutState (by decide)).2.1,
   (claim5_sink_fanout fanoutState (by decide)).2.2.2 (by decide)⟩

/-- Claim C3: when an ingested batch brings the store's distinct-metric count
to `maxBufferSize` or beyond, exactly one immediate flush runs — its snapshot
is the just-ingested store, logged as one new flush — regardless of any
pending scheduled flush: the generation bump leaves every pending timer
stale, and the store count is zero immediately after the snapshot-and-clear. -/
theorem claim3_size_trigger (s : TailState) (items : List TraceItem) (now : Int)
    (hbig : (getMetricCount (ingestOnly s items now).metrics : Int) ≥ s.maxBufferSize)
    (hgens : ∀ t ∈ s.timers, t.gen ≤ s.flushId) :
    (processTraceItems s items now).flushes
        = s.flushes ++ [toMetricPayloads (ingestOnly s items now).metrics]
  ∧ getMetricCount (processTraceItems s items now).metrics = 0
  ∧ (processTraceItems s items now).flushId = s.flushId + 1
  ∧ (processTraceItems s items now).flushScheduled = false
  ∧ ∀ t ∈ (processTraceItems s items now).timers,
      t.gen ≠ (processTraceItems s items now).flushId := by
  have hc := ingestOnly_ctrl s items now
  rw [processTraceItems_big s items now hbig]
  refine ⟨?_, ?_, ?_, ?_, ?_⟩
  · rw [performFlush_flushes]
    dsimp only
    rw [hc.fl]
  · rw [performFlush_metrics]
    rfl
  · rw [performFlush_flushId]
  · exact performFlush_flushScheduled _
  · intro t ht
    rw [performFlush_timers] at ht
    rw [performFlush_flushId]
    dsimp only at ht ⊢
    rw [hc.tmrs] at ht
    have := hgens t ht
    omega

theorem claim3_witness :
    getMetricCount (processTraceItems demoState [demoTrace "a", demoTrace "b"] 0).metrics = 0
      ∧ (processTraceItems demoState [demoTrace "a", demoTrace "b"] 0).flushId
          = demoState.flushId + 1 :=
  ⟨(claim3_size_trigger demoState [demoTrace "a", demoTrace "b"] 0
      (by decide) (by decide)).2.1,
   (claim3_size_trigger demoState [demoTrace "a", demoTrace "b"] 0
      (by decide) (by decide)).2.2.1⟩

/-- Claim C4: below the size threshold the scheduler coalesces — while a
flush is already scheduled a further ingestion arms no new timer and changes
no scheduler state; a timer is armed exactly when the state is idle and the
ingested store is non-empty, capturing the post-increment generation and the
`maxBufferDuration` wait; an idle ingestion of an empty store arms nothing;
and in every reachable state at most one pending timer is live (exactly one
when a flush is scheduled, none otherwise). -/
theorem claim4_scheduler_coalescing :
    (∀ (s : TailState) (items : List TraceItem) (now : Int),
      s.flushScheduled = true →
      (getMetricCount (ingestOnly s items now).metrics : Int) < s.maxBufferSize →
      (processTraceItems s items now).timers = s.timers
        ∧ (processTraceItems s items now).flushId = s.flushId
        ∧ (processTraceItems s items now).flushScheduled = true
        ∧ (processTraceItems s items now).flushes = s.flushes)
  ∧ (∀ (s : TailState) (items : List TraceItem) (now : Int),
      s.flushScheduled = false →
      (getMetricCount (ingestOnly s items now).metrics : Int) < s.maxBufferSize →
      0 < getMetricCount (ingestOnly s items now).metrics →
      (processTraceItems s items now).timers
          = s.timers
            ++ [{ gen := s.flushId + 1, durationMs := s.maxBufferDuration * 1000 }]
        ∧ (processTraceItems s items now).flushId = s.flushId + 1
        ∧ (processTraceItems s items now).flushScheduled = true
        ∧ (processTraceItems s items now).flushes = s.flushes)
  ∧ (∀ (s : TailState) (items : List TraceItem) (now : Int),
      s.flushScheduled = false →
      (getMetricCount (ingestOnly s items now).metrics : Int) < s.maxBufferSize →
      getMetricCount (ingestOnly s items now).metrics = 0 →
      (processTraceItems s items now).timers = s.timers
        ∧ (processTraceItems s items now).flushScheduled = false)
  ∧ (∀ s : TailState, Reach s → liveTimerCount s = cond s.flushScheduled 1 0) := by
  refine ⟨?_, ?_, ?_, ?_⟩
  · intro s items now hsched hlt
    have hc := ingestOnly_ctrl s items now
    rw [processTraceItems_coalesce s items now hlt hsched]
    exact ⟨hc.tmrs, hc.fid, hc.sched.trans hsched, hc.fl⟩
  · intro s items now hidle hlt hpos
    have hc := ingestOnly_ctrl s items now
    rw [processTraceItems_arm s items now hlt hidle hpos]
    exact ⟨rfl, rfl, rfl, hc.fl⟩
  · intro s items now hidle hlt hzero
    have hc := ingestOnly_ctrl s items now
    rw [processTraceItems_idleEmpty s items now hlt hidle hzero]
    exact ⟨hc.tmrs, hc.sched.trans hidle⟩
  · intro s hr
    exact (reach_schedInv hr).2

theorem claim4_witness :
    (processTraceItems (processTraceItems demoState [demoTrace "a"] 0)
        [demoTrace "a"] 0).timers
      = (processTraceItems demoState [demoTrace "a"] 0).timers
    ∧ liveTimerCount (processTraceItems demoState [demoTrace "a"] 0)
      = cond (processTraceItems demoState [demoTrace "a"] 0).flushScheduled 1 0 :=
  ⟨(claim4_scheduler_coalescing.1 (processTraceItems demoState [demoTrace "a"] 0)
      [demoTrace "a"] 0 (by decide) (by decide)).1,
   claim4_scheduler_coalescing.2.2.2 _
     (Reach.ingest [demoTrace "a"] 0 (Reach.construct demoOptions))⟩

/-- Claim C8 counterexample: from a freshly constructed instance, one
sub-threshold batch arms a scheduled flush; when its timer fires, the
scheduled flush actually executes (one more `#performFlush` invocation is
logged) while the generation `#flushId` stays unchanged — so the generation
is not incremented at the moment a scheduled flush executes (it was
incremented when the flush was armed). -/
theorem claim8_counterexample :
    (timerFire (processTraceItems demoState [demoTrace "a"] 0) 0).flushes.length
        = (processTraceItems demoState [demoTrace "a"] 0).flushes.length + 1
      ∧ (timerFire (processTraceItems demoState [demoTrace "a"] 0) 0).flushId
        = (processTraceItems demoState [demoTrace "a"] 0).flushId := by
  constructor
  · decide
  · decide

/-- Claim C8 as amended: the flush generation never decreases under any
operation; it is incremented exactly when an immediate flush is triggered and
when a scheduled flush is armed; and a scheduled flush's execution (a live
timer firing, which performs the flush) leaves the generation at the value
captured when it was armed. -/
theorem claim8_generation_lifecycle :
    (∀ (s : TailState) (items : List TraceItem) (now : Int),
      s.flushId ≤ (processTraceItems s items now).flushId)
  ∧ (∀ (s : TailState) (i : Nat), s.flushId ≤ (timerFire s i).flushId)
  ∧ (∀ (s : TailState) (items : List TraceItem) (now : Int),
      (getMetricCount (ingestOnly s items now).metrics : Int) ≥ s.maxBufferSize →
      (processTraceItems s items now).flushId = s.flushId + 1)
  ∧ (∀ (s : TailState) (items : List TraceItem) (now : Int),
      s.flushScheduled = false →
      (getMetricCount (ingestOnly s items now).metrics : Int) < s.maxBufferSize →
      0 < getMetricCount (ingestOnly s items now).metrics →
      (processTraceItems s items now).flushId = s.flushId + 1)
  ∧ (∀ (s : TailState) (i : Nat) (tr : TimerRec),
      s.timers[i]? = some tr → tr.gen = s.flushId →
      (timerFire s i).flushId = s.flushId
        ∧ (timerFire s i).flushes = s.flushes ++ [toMetricPayloads s.metrics]) := by
  have hmono : ∀ (s : TailState) (items : List TraceItem) (now : Int),
      s.flushId ≤ (processTraceItems s items now).flushId := by
    intro s items now
    have hc := ingestOnly_ctrl s items now
    by_cases hbig : (getMetricCount (ingestOnly s items now).metrics : Int) ≥ s.maxBufferSize
    · rw [processTraceItems_big s items now hbig, performFlush_flushId]
      dsimp only
      omega
    · have hlt : (getMetricCount (ingestOnly s items now).metrics : Int) < s.maxBufferSize := by
        omega
      by_cases hsched : s.flushScheduled = true
      · rw [processTraceItems_coalesce s items now hlt hsched, hc.fid]
      · have hidle : s.flushScheduled = false := by
          simp only [Bool.not_eq_true] at hsched
          exact hsched
        by_cases hpos : 0 < getMetricCount (ingestOnly s items now).metrics
        · rw [processTraceItems_arm s items now hlt hidle hpos]
          dsimp only
          omega
        · have hzero : getMetricCount (ingestOnly s items now).metrics = 0 := by omega
          rw [processTraceItems_idleEmpty s items now hlt hidle hzero, hc.fid]
  refine ⟨hmono, ?_, ?_, ?_, ?_⟩
  · intro s i
    unfold timerFire
    cases hgi : s.timers[i]? with
    | none => exact le_refl _
    | some tr =>
      dsimp only
      by_cases hgen : tr.gen = ({ s with timers := s.timers.eraseIdx i } : TailState).flushId
      · rw [if_pos hgen, performFlush_flushId]
      · rw [if_neg hgen]
  · intro s items now hbig
    rw [processTraceItems_big s items now hbig, performFlush_flushId]
  · intro s items now hidle hlt hpos
    rw [processTraceItems_arm s items now hlt hidle hpos]
  · intro s i tr hgi hgen
    unfold timerFire
    rw [hgi]
    dsimp only
    rw [if_pos hgen]
    exact ⟨performFlush_flushId _, performFlush_flushes _⟩

theorem claim8_witness :
    (timerFire (processTraceItems demoState [demoTrace "a"] 0) 0).flushId
        = (processTraceItems demoState [demoTrace "a"] 0).flushId
      ∧ (processTraceItems demoState [demoTrace "a", demoTrace "b"] 0).flushId
        = demoState.flushId + 1 :=
  ⟨(claim8_generation_lifecycle.2.2.2.2 (processTraceItems demoState [demoTrace "a"] 0) 0
      { gen := 1, durationMs := 5000 } (by decide) (by decide)).1,
   claim8_generation_lifecycle.2.2.1 demoState [demoTrace "a", demoTrace "b"] 0 (by decide)⟩

/-- Options configuring `maxBufferDuration` to `0` seconds. -/
def zeroDurOptions : MetricTailOptions :=
  { sinks := [], defaultCpuTime := none, defaultWallTime := none,
    defaultWorkersInvocation := none, maxBufferSize := none,
    maxBufferDuration := some 0 }

/-- Claim C9 counterexample: with `maxBufferDuration` configured as `0`, the
claimed effective value `min(configured, 30) = 0` differs from the code's
result — `options.maxBufferDuration || 5` treats the falsy `0` as
unconfigured, so the effective duration is `5`. -/
theorem claim9_counterexample :
    ¬ (mkMetricsTail zeroDurOptions).maxBufferDuration = min (0 : Int) 30 := by
  decide

/-- Claim C9 as amended: `maxBufferSize` defaults to 100 when not configured;
`maxBufferDuration` defaults to 5 when not configured, equals
`min(configured, 30)` for any nonzero configured value, and a configured `0`
is treated as unconfigured (effective 5, since `||` takes the default on the
falsy `0`); each default-metric toggle is enabled unless explicitly set to
`false`. -/
theorem claim9_config_defaults :
    (∀ o : MetricTailOptions, o.maxBufferSize = none →
      (mkMetricsTail o).maxBufferSize = 100)
  ∧ (∀ o : MetricTailOptions, o.maxBufferDuration = none →
      (mkMetricsTail o).maxBufferDuration = 5)
  ∧ (∀ (o : MetricTailOptions) (d : Int), o.maxBufferDuration = some d → d ≠ 0 →
      (mkMetricsTail o).maxBufferDuration = min d 30)
  ∧ (∀ o : MetricTailOptions, o.maxBufferDuration = some 0 →
      (mkMetricsTail o).maxBufferDuration = 5)
  ∧ (∀ o : MetricTailOptions,
      ((mkMetricsTail o).defaultCpuTime = false ↔ o.defaultCpuTime = some false)
      ∧ ((mkMetricsTail o).defaultWallTime = false ↔ o.defaultWallTime = some false)
      ∧ ((mkMetricsTail o).defaultWorkersInvocation = false
          ↔ o.defaultWorkersInvocation = some false)) := by
  refine ⟨?_, ?_, ?_, ?_, ?_⟩
  · intro o h
    unfold mkMetricsTail jsOrNum
    rw [h]
  · intro o h
    unfold mkMetricsTail jsOrNum
    rw [h]
    dsimp only
    omega
  · intro o d h hd
    unfold mkMetricsTail jsOrNum
    rw [h]
    dsimp only
    rw [if_neg hd]
  · intro o h
    unfold mkMetricsTail jsOrNum
    rw [h]
    dsimp only
    rw [if_pos rfl]
    omega
  · intro o
    refine ⟨?_, ?_, ?_⟩ <;> unfold mkMetricsTail <;> dsimp only
    · cases h : o.defaultCpuTime with
      | none => simp [h]
      | some b => cases b <;> simp [h]
    · cases h : o.defaultWallTime with
      | none => simp [h]
      | some b => cases b <;> simp [h]
    · cases h : o.defaultWorkersInvocation with
      | none => simp [h]
      | some b => cases b <;> simp [h]

/-- Options configuring `maxBufferDuration` to 45 seconds. -/
def longDurOptions : MetricTailOptions :=
  { sinks := [], defaultCpuTime := some false, defaultWallTime := none,
    defaultWorkersInvocation := none, maxBufferSize := none,
    maxBufferDuration := some 45 }

theorem claim9_witness :
    (mkMetricsTail longDurOptions).maxBufferDuration = min (45 : Int) 30
      ∧ ((mkMetricsTail longDurOptions).defaultCpuTime = false
          ↔ longDurOptions.defaultCpuTime = some false) :=
  ⟨claim9_config_defaults.2.2.1 longDurOptions 45 rfl (by decide),
   (claim9_config_defaults.2.2.2.2 longDurOptions).1⟩

/-- `Object.values(MetricType).includes(x)` succeeds exactly when `x` parses
as a `MetricType`. -/
theorem metricType_any_eq (x : JsVal) :
    metricTypeJsValues.any (fun v => jsStrictEq v x) = (jsToMetricType x).isSome := by
  cases x with
  | str s =>
    simp only [metricTypeJsValues, List.any_cons, List.any_nil, Bool.or_false,
      jsStrictEq, jsToMetricType]
    by_cases h1 : s = "count"
    · subst h1; simp
    · by_cases h2 : s = "gauge"
      · subst h2; simp
      · by_cases h3 : s = "histogram"
        · subst h3; simp
        · simp [h1, h2, h3, beq_eq_false_iff_ne.mpr (Ne.symm h1),
            beq_eq_false_iff_ne.mpr (Ne.symm h2), beq_eq_false_iff_ne.mpr (Ne.symm h3)]
  | null => rfl
  | undefined => rfl
  | bool b => rfl
  | num q => rfl
  | obj fs => rfl
  | arr l => rfl

/-- The spec's notion that a tags field is a mapping: a JavaScript object
proper (not `null`, not an array, not a primitive). -/
def specTagsMapping : JsVal → Bool
  | .obj _ => true
  | _ => false

/-- A metric message whose `tags` field is `null`: not a mapping, yet
`typeof null === "object"` satisfies `isValidMetric`. -/
def nullTagMsg : JsVal :=
  .obj [("type", .str "count"), ("name", .str "requests"), ("value", .num 1),
        ("tags", .null)]

/-- Claim C7 counterexample: a metric-channel message whose `tags` is `null`
passes `isValidMetric` and is stored, although its tags field is not a
mapping — so "stored only if ... tags is a mapping" fails on the code. -/
theorem claim7_counterexample :
    isValidMetric nullTagMsg = true
      ∧ specTagsMapping (getProp nullTagMsg "tags") = false
      ∧ getMetricCount (ingestEvent [] demoState
          { channel := metricsChannelName, message := nullTagMsg,
            timestamp := 0 }).metrics = 1 := by
  refine ⟨by decide, by decide, by decide⟩

/-- Claim C7 as amended: a diagnostics message is stored exactly when it
passes the structural check — a non-null object bearing `type`, `name`,
`value` and `tags`, whose `type` is one of the three metric type values,
`value` is a number, `name` is a string, and `tags` has JavaScript type
`object` (which `null` and arrays also satisfy); a message failing the check
is dropped with one warning, the store unchanged, and processing continues
with the remaining events of the batch. -/
theorem claim7_validity_filter :
    (∀ msg : JsVal, isValidMetric msg = true ↔
      (jsStrictEq msg .null = false ∧ jsTypeof msg = "object"
       ∧ hasProp msg "type" = true ∧ hasProp msg "name" = true
       ∧ hasProp msg "value" = true ∧ hasProp msg "tags" = true
       ∧ (jsToMetricType (getProp msg "type")).isSome = true
       ∧ jsTypeof (getProp msg "value") = "number"
       ∧ jsTypeof (getProp msg "name") = "string"
       ∧ jsTypeof (getProp msg "tags") = "object"))
  ∧ (∀ (gt : List (String × JsVal)) (s : TailState) (e : DiagnosticsChannelEvent),
      isValidMetric e.message = false →
      ingestEvent gt s e = { s with warnCount := s.warnCount + 1 })
  ∧ (∀ (gt : List (String × JsVal)) (s : TailState) (e : DiagnosticsChannelEvent)
      (rest : List DiagnosticsChannelEvent),
      isValidMetric e.message = false →
      ingestEvents gt s (e :: rest)
        = ingestEvents gt { s with warnCount := s.warnCount + 1 } rest) := by
  have hstep : ∀ (gt : List (String × JsVal)) (s : TailState)
      (e : DiagnosticsChannelEvent), isValidMetric e.message = false →
      ingestEvent gt s e = { s with warnCount := s.warnCount + 1 } := by
    intro gt s e h
    unfold ingestEvent
    rw [if_neg (by simp [h])]
  refine ⟨?_, hstep, ?_⟩
  · intro msg
    unfold isValidMetric
    rw [metricType_any_eq]
    by_cases h1 : jsStrictEq msg JsVal.null = true <;>
      by_cases h2 : jsTypeof msg = "object" <;>
        by_cases h3 : hasProp msg "type" = true <;>
          by_cases h4 : hasProp msg "name" = true <;>
            by_cases h5 : hasProp msg "value" = true <;>
              by_cases h6 : hasProp msg "tags" = true <;>
                simp_all [bne, Option.isSome_iff_ne_none, and_assoc]
  · intro gt s e rest h
    unfold ingestEvents
    rw [List.foldl_cons, hstep gt s e h]

/-- An event whose message is a bare string: dropped with a warning. -/
def badMsgEvent : DiagnosticsChannelEvent :=
  { channel := metricsChannelName, message := .str "nope", timestamp := 0 }

theorem claim7_witness :
    ingestEvent [] demoState badMsgEvent
      = { demoState with warnCount := demoState.warnCount + 1 } :=
  claim7_validity_filter.2.1 [] demoState badMsgEvent (by decide)

theorem eraseIdx_concat {α : Type} (l : List α) (a : α) :
    (l ++ [a]).eraseIdx l.length = l := by
  rw [List.eraseIdx_append_of_length_le (le_refl _)]
  simp

/-- Claim C1: the generation race produces no double flush.  From an idle
state, a sub-threshold batch arms a time-based flush capturing generation
`g = flushId + 1`; before the timer fires, a second batch reaches the size
threshold and flushes immediately, bumping the generation past `g`.  When the
armed timer then fires, its captured generation no longer matches, so it is
a no-op: it removes the spent timer and performs no second flush — the flush
log, the sink-call log, the store and the generation are all unchanged. -/
theorem claim1_generation_race (s0 : TailState) (b1 b2 : List TraceItem)
    (now1 now2 : Int)
    (hidle : s0.flushScheduled = false)
    (hpos : 0 < getMetricCount (ingestOnly s0 b1 now1).metrics)
    (hlt : (getMetricCount (ingestOnly s0 b1 now1).metrics : Int) < s0.maxBufferSize)
    (hbig : (getMetricCount
        (ingestOnly (processTraceItems s0 b1 now1) b2 now2).metrics : Int)
      ≥ s0.maxBufferSize) :
    (processTraceItems s0 b1 now1).timers
        = s0.timers
          ++ [{ gen := s0.flushId + 1, durationMs := s0.maxBufferDuration * 1000 }]
  ∧ (processTraceItems (processTraceItems s0 b1 now1) b2 now2).flushId
        = s0.flushId + 2
  ∧ (processTraceItems (processTraceItems s0 b1 now1) b2 now2).timers
        = (processTraceItems s0 b1 now1).timers
  ∧ timerFire (processTraceItems (processTraceItems s0 b1 now1) b2 now2)
        s0.timers.length
      = { processTraceItems (processTraceItems s0 b1 now1) b2 now2 with
          timers := s0.timers } := by
  have hc1 := ingestOnly_ctrl s0 b1 now1
  have harm := processTraceItems_arm s0 b1 now1 hlt hidle hpos
  have hts1 : (processTraceItems s0 b1 now1).timers
      = s0.timers
        ++ [{ gen := s0.flushId + 1, durationMs := s0.maxBufferDuration * 1000 }] := by
    rw [harm]
  have hfid1 : (processTraceItems s0 b1 now1).flushId = s0.flushId + 1 := by
    rw [harm]
  have hsize1 : (processTraceItems s0 b1 now1).maxBufferSize = s0.maxBufferSize := by
    rw [harm]
    exact hc1.maxSize
  have hc2 := ingestOnly_ctrl (processTraceItems s0 b1 now1) b2 now2
  have hbig2 : (getMetricCount
      (ingestOnly (processTraceItems s0 b1 now1) b2 now2).metrics : Int)
      ≥ (processTraceItems s0 b1 now1).maxBufferSize := by
    rw [hsize1]
    exact hbig
  have hflush := processTraceItems_big (processTraceItems s0 b1 now1) b2 now2 hbig2
  have hts2 : (processTraceItems (processTraceItems s0 b1 now1) b2 now2).timers
      = (processTraceItems s0 b1 now1).timers := by
    rw [hflush, performFlush_timers]
    exact hc2.tmrs
  have hfid2 : (processTraceItems (processTraceItems s0 b1 now1) b2 now2).flushId
      = s0.flushId + 2 := by
    rw [hflush, performFlush_flushId]
    show (processTraceItems s0 b1 now1).flushId + 1 = s0.flushId + 2
    omega
  refine ⟨hts1, hfid2, hts2, ?_⟩
  unfold timerFire
  have hsome : (processTraceItems (processTraceItems s0 b1 now1) b2
        now2).timers[s0.timers.length]?
      = some { gen := s0.flushId + 1, durationMs := s0.maxBufferDuration * 1000 } := by
    rw [hts2, hts1]
    exact List.getElem?_concat_length _ _
  rw [hsome]
  dsimp only
  have herase : (processTraceItems (processTraceItems s0 b1 now1) b2
        now2).timers.eraseIdx s0.timers.length = s0.timers := by
    rw [hts2, hts1]
    exact eraseIdx_concat _ _
  rw [herase]
  rw [if_neg ?hne]
  case hne =>
    show ¬ (s0.flushId + 1
      = ({ processTraceItems (processTraceItems s0 b1 now1) b2 now2 with
           timers := s0.timers } : TailState).flushId)
    show ¬ (s0.flushId + 1
      = (processTraceItems (processTraceItems s0 b1 now1) b2 now2).flushId)
    rw [hfid2]
    omega

theorem claim1_witness :
    timerFire (processTraceItems (processTraceItems demoState [demoTrace "a"] 0)
        [demoTrace "b"] 0) demoState.timers.length
      = { processTraceItems (processTraceItems demoState [demoTrace "a"] 0)
            [demoTrace "b"] 0 with
          timers := demoState.timers } :=
  (claim1_generation_race demoState [demoTrace "a"] [demoTrace "b"] 0 0
    (by decide) (by decide) (by decide) (by decide)).2.2.2
